import Mathlib

/-!
Shallow embedding of `src/lib/streamcoordinator.js` (classes `Streamer` and
`StreamCoordinator`).

Modelling conventions:
* JS numbers (seconds on the audio-device clock, offsets, durations) are `ℚ`.
* A JS field that may be `null`/`undefined` is an `Option`.
* JS reference identity of audio-graph nodes (`ac.createGain()`) is modelled by
  a natural-number id: each streamer carries `trackNode` (the current node's id)
  and `nextNode` (the supply of fresh ids, so a freshly created node is distinct
  from every id handed out before).
* The chunk store is external: a fetch is recorded as the request the code
  issues, and the duration of the buffer a fetch returns is a parameter of the
  continuation that consumes it.
* Asynchronous continuations (`next`'s `.then` callback, `Promise.all(...).then`)
  are explicit functions of the state at completion time plus the values the JS
  closures capture at issue time.
-/

/-- Errors thrown by `prime` / `stream` (`throw new Error(...)` in the JS). -/
inductive StreamError where
  | notReady
  | offsetOutOfRange
  | alreadyPlaying
deriving DecidableEq, Repr

/-- Error thrown by the `Streamer` constructor: `this.clips.push(tmpClip)`
dereferences `this.clips`, which is never initialized (a `TypeError`). -/
inductive ConstructError where
  | clipsUndefined
deriving DecidableEq, Repr

/-- Result of `Math.max.apply(Math, durations)`: `-Infinity` on an empty list. -/
inductive DurationVal where
  | negInf
  | fin (q : ℚ)
deriving DecidableEq, Repr

/-- A call `src.connect(output); src.start(when)` scheduling a chunk buffer of
duration `dur` for window start `offset` at device-clock time `when` on the
output node `output`. -/
structure Play where
  when : ℚ
  offset : ℚ
  dur : ℚ
  output : ℕ
deriving DecidableEq, Repr

/-- A `store.getAudioBuffer(name, offset, dur)` request issued by `next`,
together with the values its `.then` continuation captured (`when` argument and
the `output` node the fetch was issued against). -/
structure FetchReq where
  offset : ℚ
  dur : ℚ
  whenArg : ℚ
  output : ℕ
deriving DecidableEq, Repr

/-- The mutable fields of a `Streamer` instance. -/
structure StreamerState where
  streamID : ℕ
  url : Option String
  name : Option String
  clips : Option (List String)
  duration : Option ℚ
  ready : Bool
  stopped : Bool
  startTime : Option ℚ
  startOffset : Option ℚ
  primed : Option (ℚ × ℚ)
  trackNode : ℕ
  nextNode : ℕ
  ending : Bool
  fetchTimer : Option (ℚ × ℚ × ℕ)
  garbageBuffer : Bool
deriving DecidableEq, Repr

/-- JS `x || d` on an optional number: `null`/`undefined` and `0` are falsy. -/
def jsOr (o : Option ℚ) (d : ℚ) : ℚ :=
  match o with
  | none => d
  | some q => if q = 0 then d else q

/-- JS `x >= y` where `y` may be `undefined`: comparison with `undefined` is
`NaN >= _`, hence `false`. -/
def jsGe (x : ℚ) (d : Option ℚ) : Bool :=
  match d with
  | none => false
  | some q => decide (q ≤ x)

/-- JS `x >= y` against a coordinator duration that may be `undefined` or
`-Infinity` (`Math.max` of an empty list). -/
def jsGeDur (x : ℚ) (d : Option DurationVal) : Bool :=
  match d with
  | none => false
  | some .negInf => true
  | some (.fin q) => decide (q ≤ x)

/-- `Math.min(1, this.duration - offset)`, the chunk-window length. The `none`
case is the unreachable junk of an undefined duration (NaN in JS). -/
def chunkDur (d : Option ℚ) (offset : ℚ) : ℚ :=
  match d with
  | none => 0
  | some q => min 1 (q - offset)

/-- `Math.max.apply(Math, l)`: `-Infinity` for the empty list. -/
def jsMaxList (l : List ℚ) : DurationVal :=
  l.foldr (fun d m =>
    match m with
    | .negInf => .fin d
    | .fin q => .fin (max d q)) .negInf

def sepSlash : String := "/"

def sepDot : String := "."

def emptyStr : String := ""

/-- `url.split('/').pop().split('.')[0]` — name derived from a locator. -/
def deriveName (fileName : String) : String :=
  (((fileName.splitOn sepSlash).getLastD emptyStr).splitOn sepDot).headD emptyStr

/-- The state the `Streamer` constructor builds when it does not throw:
`url`/`name`/`clips`/`duration` undefined, `startTime`/`startOffset` null,
`stopped` true, `ready` false, one fresh `trackNode`, a throwaway
`garbageBuffer` present. -/
def freshStreamer (id0 node0 : ℕ) : StreamerState where
  streamID := id0
  url := none
  name := none
  clips := none
  duration := none
  ready := false
  stopped := true
  startTime := none
  startOffset := none
  primed := none
  trackNode := node0
  nextNode := node0 + 1
  ending := false
  fetchTimer := none
  garbageBuffer := true

/-- `new Streamer(url, store, ac)`. When `url` is truthy (non-null, non-empty)
the constructor reaches `this.clips.push(tmpClip)` and throws, because
`this.clips` is never assigned anywhere in the class. -/
def mkStreamer (url : Option String) (id0 node0 : ℕ) :
    Except ConstructError StreamerState :=
  match url with
  | none => .ok (freshStreamer id0 node0)
  | some u =>
    if u.length > 0 then .error .clipsUndefined
    else .ok (freshStreamer id0 node0)

/-- `Streamer#addClip(clip)`: rebind `url` and the derived `name`. -/
def streamerAddClip (s : StreamerState) (fileName : String) : StreamerState :=
  { s with url := some fileName, name := some (deriveName fileName) }

/-- Completion of `Streamer#load()`: both the cache-hit and the fetch/decode
path end with `duration` adopted and `ready` set. -/
def streamerLoad (s : StreamerState) (d : ℚ) : StreamerState :=
  { s with duration := some d, ready := true }

/-- `Streamer#prime(offset)`. `offsetArg = none` models a non-number argument.
`recordDur` is the duration of the buffer the store returns for the request.
Returns the new state and the single `(offset, chunkDuration)` window fetched
from the store. -/
def streamerPrime (s : StreamerState) (offsetArg : Option ℚ) (recordDur : ℚ) :
    Except StreamError (StreamerState × ℚ × ℚ) :=
  let offset := offsetArg.getD (s.startOffset.getD 0)
  if !s.ready then .error .notReady
  else if jsGe offset s.duration then .error .offsetOutOfRange
  else .ok ({ s with primed := some (offset, recordDur) },
            offset, chunkDur s.duration offset)

/-- The body of the `play` closure inside `Streamer#stream`: connect and start
the source at `when`, then either register the end-of-file `onended → stop`
callback (field `ending`) or arm `fetchtimer` with the captured arguments of
the next `next(when', offset', output)` call. -/
def playStep (s : StreamerState) (srcDur when offset : ℚ) (output : ℕ) :
    StreamerState × Play :=
  let p : Play := ⟨when, offset, srcDur, output⟩
  let when2 := when + srcDur
  let offset2 := offset + srcDur
  if jsGe offset2 s.duration then ({ s with ending := true }, p)
  else ({ s with fetchTimer := some (when2, offset2, output) }, p)

/-- The `.then` continuation of the fetch issued by the `next` closure, run in
the streamer state `s` current at completion time. `whenArg`, `offset` and
`output` are the values the closure captured when the fetch was issued;
`recordDur` is the fetched buffer's duration; `clock` is `ac.currentTime` at
completion. The guard `this.stopped || output !== this.trackNode` drops stale
completions. -/
def nextCont (s : StreamerState) (clock recordDur whenArg offset : ℚ)
    (output : ℕ) : StreamerState × Option Play :=
  if s.stopped || output != s.trackNode then (s, none)
  else
    let when := if whenArg = 0 then clock else whenArg
    let s1 := if s.startTime = none then { s with startTime := some when } else s
    let res := playStep s1 recordDur when offset output
    (res.1, some res.2)

/-- Result of the synchronous part of `Streamer#stream`: the new state, the
chunk started immediately (primed path), and the store fetch issued by
`next(0, offset, this.trackNode)` (fresh-fetch path). -/
structure StreamResult where
  state : StreamerState
  played : Option Play
  fetch : Option FetchReq
deriving DecidableEq, Repr

/-- `Streamer#stream(offset)` at device-clock time `clock`. -/
def streamerStream (s : StreamerState) (clock : ℚ) (offsetArg : Option ℚ) :
    Except StreamError StreamResult :=
  let offset := offsetArg.getD (s.startOffset.getD 0)
  if !s.ready then .error .notReady
  else if !s.stopped then .error .alreadyPlaying
  else
    let s1 := { s with ending := false }
    if jsGe offset s1.duration then
      .ok ⟨s1, none, none⟩
    else
      let s2 := { s1 with garbageBuffer := false,
                          stopped := false, startOffset := some offset }
      match s2.primed with
      | some pr =>
        let s3 := { s2 with primed := none }
        if pr.1 = offset then
          let res := playStep s3 pr.2 clock offset s3.trackNode
          .ok ⟨res.1, some res.2, none⟩
        else
          .ok ⟨s3, none, some ⟨offset, chunkDur s3.duration offset, 0, s3.trackNode⟩⟩
      | none =>
        .ok ⟨s2, none, some ⟨offset, chunkDur s2.duration offset, 0, s2.trackNode⟩⟩

/-- `Streamer#stop()` at device-clock time `clock`: fold the elapsed span into
`startOffset`, wrap to 0 past the end, replace `trackNode` with a freshly
created gain node, clear the pending fetch timer. -/
def streamerStop (s : StreamerState) (clock : ℚ) : StreamerState :=
  if s.stopped || !s.ready then s
  else
    let elapsed := clock - s.startTime.getD 0
    let off := s.startOffset.getD 0 + elapsed
    let off2 := if jsGe off s.duration then 0 else off
    { s with stopped := true,
             trackNode := s.nextNode,
             nextNode := s.nextNode + 1,
             startTime := none,
             startOffset := some off2,
             fetchTimer := none }

/-- `Streamer#currentTime()` at device-clock time `clock` (pure read). -/
def streamerCurrentTime (s : StreamerState) (clock : ℚ) : Option ℚ :=
  if s.stopped then s.startOffset
  else some (jsOr s.startOffset 0 + (clock - jsOr s.startTime clock))

/-- `Streamer#seek(offset)` at device-clock time `clock`. -/
def streamerSeek (s : StreamerState) (clock offset : ℚ) :
    Except StreamError StreamResult :=
  if !s.stopped then streamerStream (streamerStop s clock) clock (some offset)
  else .ok ⟨{ s with startOffset := some offset }, none, none⟩

/-- The mutable fields of a `StreamCoordinator` instance. -/
structure CoordState where
  playbackMode : String
  streamers : List StreamerState
  duration : Option DurationVal
  stopped : Bool
  ready : Bool
  startTime : Option ℚ
  startOffset : Option ℚ
  garbageBuffer : Bool
deriving DecidableEq, Repr

def bsnMode : String := "AudioBufferSourceNode"

/-- `new StreamCoordinator(urls, store, ac, playbackMode)`: empty streamer
list, undefined duration, stopped, not ready. -/
def mkCoordinator (mode : String) : CoordState where
  playbackMode := mode
  streamers := []
  duration := none
  stopped := true
  ready := false
  startTime := none
  startOffset := none
  garbageBuffer := mode = bsnMode

/-- Completions of the per-streamer `load()` calls fanned out by
`StreamCoordinator#load`, each adopting its store duration. -/
def loadStreamers : List StreamerState → List ℚ → List StreamerState
  | [], _ => []
  | s :: ss, [] => s :: ss
  | s :: ss, d :: ds => streamerLoad s d :: loadStreamers ss ds

/-- `StreamCoordinator#load()` given the duration each streamer's own load
resolves with: after `Promise.all`, `duration = Math.max(...durations)`,
which is `-Infinity` when the coordinator owns zero streamers. -/
def coordLoad (c : CoordState) (durs : List ℚ) : CoordState :=
  let ss := loadStreamers c.streamers durs
  { c with streamers := ss,
           duration := some (jsMaxList (ss.map (fun s => s.duration.getD 0))) }

/-- `StreamCoordinator#stop()` at device-clock time `clock`. -/
def coordStop (c : CoordState) (clock : ℚ) : CoordState :=
  if c.stopped then c
  else
    let ss := c.streamers.map (fun s => streamerStop s clock)
    let elapsed := clock - c.startTime.getD 0
    let off := c.startOffset.getD 0 + elapsed
    let off2 := if jsGeDur off c.duration then 0 else off
    { c with streamers := ss, stopped := true,
             startTime := none, startOffset := some off2 }

/-- `StreamCoordinator#currentTime()` at device-clock time `clock`: returns the
value and the possibly auto-stopped state (`current >= duration` triggers
`this.stop()` and a `0` return). -/
def coordCurrentTime (c : CoordState) (clock : ℚ) : Option ℚ × CoordState :=
  if c.stopped then (c.startOffset, c)
  else
    let current := jsOr c.startOffset 0 + (clock - jsOr c.startTime clock)
    if jsGeDur current c.duration then (some 0, coordStop c clock)
    else (some current, c)

/-- The fan-out `this.streamers.map(streamer => streamer.prime(offset))` of
`StreamCoordinator#stream`, every fetch issued at device time `t0`. Each
streamer's entry in `params` is its simulated `(fetchLatency, recordDuration)`,
so its prime settles at `t0 + latency`. Returns the streamer states once every
prime has settled, the list of settle times, and whether any prime rejected
(a rejected `Promise.all` whose `.then` callback then never runs). -/
def primeAll (t0 offset : ℚ) :
    List StreamerState → List (ℚ × ℚ) → List StreamerState × List ℚ × Bool
  | [], _ => ([], [], false)
  | s :: ss, [] => (s :: ss, [], true)
  | s :: ss, pr :: ps =>
    let rest := primeAll t0 offset ss ps
    match streamerPrime s (some offset) pr.2 with
    | .ok r => (r.1 :: rest.1, (t0 + pr.1) :: rest.2.1, rest.2.2)
    | .error _ => (s :: rest.1, (t0 + pr.1) :: rest.2.1, true)

/-- The `this.streamers.forEach(streamer => streamer.stream(offset))` loop in
the `Promise.all(...).then` callback, run synchronously at device-clock time
`clock`. An exception aborts the loop (the flag records it). -/
def streamAll (clock offset : ℚ) :
    List StreamerState → List StreamerState × List Play × List FetchReq × Bool
  | [] => ([], [], [], false)
  | s :: ss =>
    match streamerStream s clock (some offset) with
    | .ok r =>
      let rest := streamAll clock offset ss
      (r.state :: rest.1, r.played.toList ++ rest.2.1,
       r.fetch.toList ++ rest.2.2.1, rest.2.2.2)
    | .error _ => (s :: ss, [], [], true)

/-- Trace of one `StreamCoordinator#stream(offset)` call: the state once the
barrier callback (if any) has run, the settle times of the individual primes,
the time the `Promise.all` callback ran (the max settle time), the first chunks
it scheduled, the store fetches those `stream()` calls issued, and whether any
prime or stream failed. -/
structure CoordStreamResult where
  state : CoordState
  primeDone : List ℚ
  barrier : ℚ
  plays : List Play
  fetches : List FetchReq
  failed : Bool
deriving DecidableEq, Repr

/-- `StreamCoordinator#stream(offset)` starting at device-clock time `t0`, with
per-streamer prime latencies and store-buffer durations `params`. The
synchronous tail (`stopped = false`, `startOffset = offset`) runs before any
prime settles; the `Promise.all(...).then` callback runs at the latest settle
time, captures `startTime` if unset, and streams every streamer at that same
device-clock instant. -/
def coordStream (c : CoordState) (t0 : ℚ) (params : List (ℚ × ℚ))
    (offsetArg : Option ℚ) : CoordStreamResult :=
  let offset := offsetArg.getD (c.startOffset.getD 0)
  let c1 := { c with garbageBuffer := false }
  let pa := primeAll t0 offset c1.streamers params
  let c2 := { c1 with stopped := false, startOffset := some offset }
  let barrier := pa.2.1.foldr max t0
  if pa.2.2 then
    ⟨{ c2 with streamers := pa.1 }, pa.2.1, barrier, [], [], true⟩
  else
    let c3 := if c2.startTime = none then { c2 with startTime := some barrier }
              else c2
    let sa := streamAll barrier offset pa.1
    ⟨{ c3 with streamers := sa.1 }, pa.2.1, barrier, sa.2.1, sa.2.2.1, sa.2.2.2⟩

/-- A public `Streamer` operation other than `stream`/`seek`, with the external
inputs its completion depends on. -/
inductive StreamerOp where
  | load (d : ℚ)
  | prime (offsetArg : Option ℚ) (recordDur : ℚ)
  | stop (clock : ℚ)
deriving DecidableEq, Repr

/-- Run one such operation; a thrown `prime` leaves the state unchanged. -/
def applyStreamerOp (s : StreamerState) : StreamerOp → StreamerState
  | .load d => streamerLoad s d
  | .prime off rd =>
    match streamerPrime s off rd with
    | .ok r => r.1
    | .error _ => s
  | .stop clock => streamerStop s clock

def applyStreamerOps (s : StreamerState) (ops : List StreamerOp) : StreamerState :=
  ops.foldl applyStreamerOp s

/-- A public `StreamCoordinator` operation other than `stream`/`seek`. -/
inductive CoordOp where
  | load (durs : List ℚ)
  | stop (clock : ℚ)
  | read (clock : ℚ)
deriving DecidableEq, Repr

/-- Run one coordinator operation (`read` is `currentTime`, which may mutate). -/
def applyCoordOp (c : CoordState) : CoordOp → CoordState
  | .load durs => coordLoad c durs
  | .stop clock => coordStop c clock
  | .read clock => (coordCurrentTime c clock).2

def applyCoordOps (c : CoordState) (ops : List CoordOp) : CoordState :=
  ops.foldl applyCoordOp c

/-! Shared helper lemmas and concrete example states. -/

def exUrl : String := "a/b.mp3"

/-- A loaded, stopped streamer of duration 1. -/
def exLoaded : StreamerState := streamerLoad (freshStreamer 0 0) 1

/-- A loaded, stopped streamer of duration 1 whose cursor rests at 0.5. -/
def exMid : StreamerState := { exLoaded with startOffset := some (1/2) }

/-- A loaded streamer playing from offset 0 anchored at device time 0. -/
def exPlaying : StreamerState :=
  { exLoaded with stopped := false, startTime := some 0, startOffset := some 0 }

theorem le_foldr_max (l : List ℚ) (a : ℚ) : ∀ t ∈ l, t ≤ l.foldr max a := by
  induction l with
  | nil => simp
  | cons x xs ih =>
    intro t ht
    rcases List.mem_cons.mp ht with h | h
    · subst h; exact le_max_left _ _
    · exact le_trans (ih t h) (le_max_right _ _)

/-- A streamer on which `prime(offset)` succeeds and `stream(offset)` would
start playback: ready, stopped, with a known duration past `offset`. -/
def primeReady (offset : ℚ) (s : StreamerState) : Bool :=
  s.ready && s.stopped && s.duration.isSome && !(jsGe offset s.duration)

/-- A `primeReady` streamer additionally holding a primed chunk at `offset`. -/
def primedReady (offset : ℚ) (s : StreamerState) : Bool :=
  primeReady offset s &&
    (match s.primed with
     | some pr => decide (pr.1 = offset)
     | none => false)

theorem streamerPrime_of_primeReady (s : StreamerState) (offset rd : ℚ)
    (h : primeReady offset s = true) :
    streamerPrime s (some offset) rd
      = .ok ({ s with primed := some (offset, rd) },
             offset, chunkDur s.duration offset) := by
  have h' := h
  simp only [primeReady, Bool.and_eq_true, Bool.not_eq_true'] at h'
  simp [streamerPrime, h'.1.1.1, h'.2]

theorem primedReady_update (s : StreamerState) (offset rd : ℚ)
    (h : primeReady offset s = true) :
    primedReady offset { s with primed := some (offset, rd) } = true := by
  simp only [primeReady, Bool.and_eq_true, Bool.not_eq_true'] at h
  simp [primedReady, primeReady, h.1.1.1, h.1.1.2, h.1.2, h.2]

theorem primedReady_fields (s : StreamerState) (offset : ℚ)
    (h : primedReady offset s = true) :
    s.ready = true ∧ s.stopped = true ∧ jsGe offset s.duration = false ∧
    ∃ rd, s.primed = some (offset, rd) := by
  simp only [primedReady, primeReady, Bool.and_eq_true, Bool.not_eq_true'] at h
  refine ⟨h.1.1.1.1, h.1.1.1.2, h.1.2, ?_⟩
  cases hp : s.primed with
  | none => rw [hp] at h; simp at h
  | some pr =>
    obtain ⟨a, b⟩ := pr
    rw [hp] at h
    have ha : a = offset := by simpa using h.2
    exact ⟨b, by rw [ha]⟩

theorem playStep_snd (s : StreamerState) (d w o : ℚ) (out : ℕ) :
    (playStep s d w o out).2 = ⟨w, o, d, out⟩ := by
  simp only [playStep]
  split <;> rfl

theorem streamerStream_primed (s : StreamerState) (T offset rd : ℚ)
    (hr : s.ready = true) (hs : s.stopped = true)
    (hg : jsGe offset s.duration = false)
    (hpr : s.primed = some (offset, rd)) :
    ∃ r, streamerStream s T (some offset) = .ok r ∧
      r.played = some ⟨T, offset, rd, s.trackNode⟩ ∧ r.fetch = none := by
  unfold streamerStream
  simp only [Option.getD_some, hr, hs, Bool.not_true, Bool.false_eq_true,
    if_false, hpr, hg, if_true, ite_self]
  refine ⟨_, rfl, ?_, rfl⟩
  simp [playStep_snd]

theorem streamAll_primed (T offset : ℚ) (ss : List StreamerState)
    (h : ∀ s ∈ ss, primedReady offset s = true) :
    (streamAll T offset ss).2.2.2 = false ∧
    (streamAll T offset ss).2.2.1 = [] ∧
    (streamAll T offset ss).2.1.length = ss.length ∧
    (∀ p ∈ (streamAll T offset ss).2.1, p.when = T) := by
  induction ss with
  | nil => simp [streamAll]
  | cons s rest ih =>
    have hs := h s (List.mem_cons_self s rest)
    obtain ⟨h1, h2, h3, rd, h4⟩ := primedReady_fields s offset hs
    obtain ⟨r, hr, hp, hf⟩ := streamerStream_primed s T offset rd h1 h2 h3 h4
    have ihr := ih (fun x hx => h x (List.mem_cons_of_mem s hx))
    have hstep : streamAll T offset (s :: rest)
        = (r.state :: (streamAll T offset rest).1,
           r.played.toList ++ (streamAll T offset rest).2.1,
           r.fetch.toList ++ (streamAll T offset rest).2.2.1,
           (streamAll T offset rest).2.2.2) := by
      conv_lhs => rw [streamAll]
      rw [hr]
    rw [hstep]
    refine ⟨ihr.1, ?_, ?_, ?_⟩
    · simp [hf, ihr.2.1]
    · simp [hp, ihr.2.2.1]
    · intro p hpmem
      rw [hp] at hpmem
      simp only [Option.toList_some, List.cons_append, List.nil_append,
        List.mem_cons] at hpmem
      rcases hpmem with hcase | hcase
      · rw [hcase]
      · exact ihr.2.2.2 p hcase

theorem primeAll_ok (t0 offset : ℚ) (ss : List StreamerState) :
    ∀ ps : List (ℚ × ℚ), ps.length = ss.length →
    (∀ s ∈ ss, primeReady offset s = true) →
    (primeAll t0 offset ss ps).2.2 = false ∧
    (primeAll t0 offset ss ps).2.1 = ps.map (fun pr => t0 + pr.1) ∧
    (primeAll t0 offset ss ps).1.length = ss.length ∧
    (∀ s ∈ (primeAll t0 offset ss ps).1, primedReady offset s = true) := by
  induction ss with
  | nil =>
    intro ps hlen _
    have : ps = [] := List.length_eq_zero.mp (by simpa using hlen)
    subst this
    simp [primeAll]
  | cons s rest ih =>
    intro ps hlen h
    cases ps with
    | nil => simp at hlen
    | cons pr ps' =>
      have hs := h s (List.mem_cons_self s rest)
      have ihr := ih ps' (by simpa using hlen)
        (fun x hx => h x (List.mem_cons_of_mem s hx))
      unfold primeAll
      rw [streamerPrime_of_primeReady s offset pr.2 hs]
      refine ⟨ihr.1, ?_, ?_, ?_⟩
      · simp [ihr.2.1]
      · simp [ihr.2.2.1]
      · intro x hx
        rcases List.mem_cons.mp hx with hx | hx
        · rw [hx]; exact primedReady_update s offset pr.2 hs
        · exact ihr.2.2.2 x hx

/-- Claim C2: `StreamCoordinator.stream(offset)` issues `prime(offset)` to every
owned streamer and waits until all of those primes have completed before
issuing `stream(offset)` to any streamer (every prime settle time is at or
before the barrier instant, the time at which every `stream()` call runs), and
all first chunks are consumed from `primedChunk` — no store fetch is issued by
the `stream()` calls — and scheduled at the same captured device-clock instant. -/
theorem coordinator_prime_barrier (c : CoordState) (t0 offset : ℚ)
    (params : List (ℚ × ℚ))
    (hlen : params.length = c.streamers.length)
    (hready : ∀ s ∈ c.streamers, primeReady offset s = true) :
    (coordStream c t0 params (some offset)).failed = false ∧
    (∀ t ∈ (coordStream c t0 params (some offset)).primeDone,
      t ≤ (coordStream c t0 params (some offset)).barrier) ∧
    (∀ p ∈ (coordStream c t0 params (some offset)).plays,
      p.when = (coordStream c t0 params (some offset)).barrier) ∧
    (coordStream c t0 params (some offset)).plays.length = c.streamers.length ∧
    (coordStream c t0 params (some offset)).fetches = [] := by
  have hpa := primeAll_ok t0 offset c.streamers params hlen hready
  have hsa := streamAll_primed
      ((primeAll t0 offset c.streamers params).2.1.foldr max t0) offset
      (primeAll t0 offset c.streamers params).1 hpa.2.2.2
  unfold coordStream
  simp only [Option.getD_some, hpa.1, Bool.false_eq_true, if_false]
  refine ⟨hsa.1, ?_, ?_, ?_, hsa.2.1⟩
  · intro t ht
    exact le_foldr_max _ t0 t ht
  · intro p hp
    exact hsa.2.2.2 p hp
  · rw [hsa.2.2.1, hpa.2.2.1]

/-- Claim C2 witness: a coordinator with two loaded streamers, prime latencies
1/4 and 1/8, streaming from offset 0 at device time 1. -/
def c2Coord : CoordState :=
  coordLoad { mkCoordinator bsnMode with
              streamers := [freshStreamer 0 0, freshStreamer 1 10] } [3, 5]

theorem coordinator_prime_barrier_witness :
    (coordStream c2Coord 1 [(1/4, 1), (1/8, 1)] (some 0)).failed = false ∧
    (∀ t ∈ (coordStream c2Coord 1 [(1/4, 1), (1/8, 1)] (some 0)).primeDone,
      t ≤ (coordStream c2Coord 1 [(1/4, 1), (1/8, 1)] (some 0)).barrier) ∧
    (∀ p ∈ (coordStream c2Coord 1 [(1/4, 1), (1/8, 1)] (some 0)).plays,
      p.when = (coordStream c2Coord 1 [(1/4, 1), (1/8, 1)] (some 0)).barrier) ∧
    (coordStream c2Coord 1 [(1/4, 1), (1/8, 1)] (some 0)).plays.length
      = c2Coord.streamers.length ∧
    (coordStream c2Coord 1 [(1/4, 1), (1/8, 1)] (some 0)).fetches = [] :=
  coordinator_prime_barrier c2Coord 1 0 [(1/4, 1), (1/8, 1)]
    (by decide) (by decide)

/-- Claim C1: the continuation of a chunk fetch schedules playback only if the
streamer is still playing (`stopped` is false) and the output sink captured at
issue time is identical to the streamer's current one; when the guard fails the
continuation returns with the state unchanged and nothing scheduled. In
particular a fetch issued against the pre-`stop()` output sink (which is always
an id below the fresh-node supply) finds, after `stop()` replaced the sink,
both guards tripped and is silently dropped. -/
theorem streamer_staleness_guard (s : StreamerState)
    (clock clock2 clock3 recordDur whenArg offset : ℚ) (output : ℕ) :
    ((s.stopped = true ∨ output ≠ s.trackNode) →
      nextCont s clock recordDur whenArg offset output = (s, none)) ∧
    (∀ p, (nextCont s clock recordDur whenArg offset output).2 = some p →
      s.stopped = false ∧ output = s.trackNode) ∧
    (s.trackNode < s.nextNode → s.stopped = false → s.ready = true →
      (streamerStop s clock2).trackNode ≠ s.trackNode ∧
      nextCont (streamerStop s clock2) clock3 recordDur whenArg offset
          s.trackNode
        = (streamerStop s clock2, none)) := by
  refine ⟨?_, ?_, ?_⟩
  · intro h
    have hb : (s.stopped || output != s.trackNode) = true := by
      rcases h with h | h
      · simp [h]
      · simp [bne_iff_ne, h]
    unfold nextCont
    simp [hb]
  · intro p hp
    by_cases hb : (s.stopped || output != s.trackNode) = true
    · unfold nextCont at hp
      simp [hb] at hp
    · simp only [Bool.or_eq_true, bne_iff_ne, not_or, Bool.not_eq_true] at hb
      push_neg at hb
      exact ⟨hb.1, hb.2⟩
  · intro hlt hplay hready
    have hstop : (streamerStop s clock2).stopped = true := by
      unfold streamerStop
      simp [hplay, hready]
    have hnode : (streamerStop s clock2).trackNode = s.nextNode := by
      unfold streamerStop
      simp [hplay, hready]
    refine ⟨by rw [hnode]; exact Nat.ne_of_gt hlt, ?_⟩
    unfold nextCont
    simp [hstop]

theorem streamer_staleness_guard_witness :
    (streamerStop exPlaying 0).trackNode ≠ exPlaying.trackNode ∧
    nextCont (streamerStop exPlaying 0) 2 1 0 0 exPlaying.trackNode
      = (streamerStop exPlaying 0, none) :=
  (streamer_staleness_guard exPlaying 0 0 2 1 0 0
      exPlaying.trackNode).2.2 (by decide) (by decide) (by decide)

/-- Claim C3 counterexample: a ready, stopped streamer of duration 1 with
cursor 1/2 receives `stream(3)`; it stays stopped with nothing fetched, but
its cursor remains 1/2 instead of being reset to 0, because the `stop()` it
delegates to returns immediately on an already-stopped streamer. -/
theorem stream_past_end_keeps_cursor :
    (streamerStream exMid 0 (some 3)).map (fun r => r.state.startOffset)
      = .ok (some (1/2)) ∧ ((1 : ℚ)/2 : ℚ) ≠ 0 := by
  constructor
  · rfl
  · norm_num

/-- Claim C3 amended: for every ready, stopped streamer and offset at or past
the duration, `stream(offset)` only clears a pending ending callback, fetches
and schedules nothing, and leaves the streamer stopped with its cursor
unchanged (not reset to 0: the delegated `stop()` is a no-op on an
already-stopped streamer). -/
theorem stream_past_end_noop (s : StreamerState) (clock offset : ℚ)
    (hr : s.ready = true) (hs : s.stopped = true)
    (hge : jsGe offset s.duration = true) :
    streamerStream s clock (some offset)
        = .ok ⟨{ s with ending := false }, none, none⟩ ∧
    ({ s with ending := false } : StreamerState).stopped = s.stopped ∧
    ({ s with ending := false } : StreamerState).startOffset = s.startOffset := by
  refine ⟨?_, rfl, rfl⟩
  unfold streamerStream
  simp [hr, hs, hge]

theorem stream_past_end_noop_witness :
    streamerStream exMid 0 (some 3)
        = .ok ⟨{ exMid with ending := false }, none, none⟩ ∧
    ({ exMid with ending := false } : StreamerState).stopped = exMid.stopped ∧
    ({ exMid with ending := false } : StreamerState).startOffset
      = exMid.startOffset :=
  stream_past_end_noop exMid 0 3 (by decide) (by decide) (by decide)

/-- Claim C4 counterexample: on a ready, stopped streamer of duration 1 the
public operation `seek(5)` stores cursor 5, which is not inside `[0, 1)`. -/
theorem seek_stopped_unclamped :
    (streamerSeek exLoaded 0 5).map
        (fun r => (r.state.startOffset, r.state.duration))
      = .ok (some 5, some 1) ∧ ¬ ((5 : ℚ) < 1) := by
  constructor
  · rfl
  · norm_num

/-- Claim C4 amended: the in-range invariant holds for the `stop()` fold — on a
ready, playing streamer with a known positive duration and a nonnegative folded
cursor, `stop()` leaves `cursorOffset` in `[0, duration)`, resetting it to 0
when it reached or exceeded the duration — but it is not preserved by every
public operation: `seek` while stopped (and `stream`'s cursor write) store the
requested offset unclamped, as the counterexample shows. -/
theorem stop_wraps_cursor (s : StreamerState) (clock d : ℚ)
    (hplay : s.stopped = false) (hready : s.ready = true)
    (hd : s.duration = some d) (hdpos : 0 < d)
    (hnn : 0 ≤ s.startOffset.getD 0 + (clock - s.startTime.getD 0)) :
    (∃ q, (streamerStop s clock).startOffset = some q ∧ 0 ≤ q ∧ q < d) ∧
    (d ≤ s.startOffset.getD 0 + (clock - s.startTime.getD 0) →
      (streamerStop s clock).startOffset = some 0) ∧
    (s.startOffset.getD 0 + (clock - s.startTime.getD 0) < d →
      (streamerStop s clock).startOffset
        = some (s.startOffset.getD 0 + (clock - s.startTime.getD 0))) := by
  unfold streamerStop
  simp only [hplay, hready, Bool.not_true, Bool.or_self, Bool.false_eq_true,
    if_false, hd]
  by_cases hcase : d ≤ s.startOffset.getD 0 + (clock - s.startTime.getD 0)
  · refine ⟨⟨0, by simp [jsGe, hcase], le_refl 0, hdpos⟩, ?_, ?_⟩
    · intro _
      simp [jsGe, hcase]
    · intro hlt
      exact absurd hcase (not_le.mpr hlt)
  · refine ⟨⟨s.startOffset.getD 0 + (clock - s.startTime.getD 0),
      by simp [jsGe, hcase], hnn, lt_of_not_le hcase⟩, ?_, ?_⟩
    · intro hge
      exact absurd hge hcase
    · intro _
      simp [jsGe, hcase]

theorem stop_wraps_cursor_witness :
    (∃ q, (streamerStop exPlaying 2).startOffset = some q ∧ 0 ≤ q ∧ q < 1) ∧
    (streamerStop exPlaying 2).startOffset = some 0 :=
  have h := stop_wraps_cursor exPlaying 2 1 (by decide) (by decide) (by decide)
    (by norm_num)
    (by norm_num [exPlaying, exLoaded, streamerLoad, freshStreamer])
  ⟨h.1, h.2.1
    (by norm_num [exPlaying, exLoaded, streamerLoad, freshStreamer])⟩

/-- Claim C5: `prime` fails with the not-ready error when `ready` is false,
fails with the offset-out-of-range error when the offset reaches the duration,
and otherwise issues exactly one store fetch for the window
`[offset, offset + min(1, duration - offset))` and stores the result as
`primedChunk`, overwriting any previous one; a missing offset defaults to the
last known cursor (`startOffset`, or 0 when null). -/
theorem prime_spec (s : StreamerState) (offset rd d : ℚ) :
    (s.ready = false → ∀ offArg, streamerPrime s offArg rd = .error .notReady) ∧
    (s.ready = true → s.duration = some d → d ≤ offset →
      streamerPrime s (some offset) rd = .error .offsetOutOfRange) ∧
    (s.ready = true → s.duration = some d → offset < d →
      streamerPrime s (some offset) rd
        = .ok ({ s with primed := some (offset, rd) },
               offset, min 1 (d - offset))) ∧
    streamerPrime s none rd = streamerPrime s (some (s.startOffset.getD 0)) rd := by
  refine ⟨?_, ?_, ?_, rfl⟩
  · intro h offArg
    unfold streamerPrime
    simp [h]
  · intro h1 h2 h3
    have hg : jsGe offset s.duration = true := by simp [jsGe, h2, h3]
    unfold streamerPrime
    simp [h1, hg]
  · intro h1 h2 h3
    have hg : jsGe offset (some d) = false := by
      simp only [jsGe, decide_eq_false_iff_not]
      exact not_le.mpr h3
    unfold streamerPrime
    simp [h1, h2, hg, chunkDur]

theorem prime_spec_witness :
    streamerPrime exMid (some 0) (7/8)
      = .ok ({ exMid with primed := some (0, 7/8) }, 0, min 1 (1 - 0)) :=
  (prime_spec exMid 0 (7/8) 1).2.2.1 (by decide) (by decide) (by norm_num)

/-- Claim C6: `stop()` is idempotent — for every streamer state and device
times, a second `stop()` right after a first yields exactly the same state
(every field: stopped flag, cursor, anchor, output sink, pending timer) — and
`stop()` on an already-stopped or non-ready streamer changes nothing. -/
theorem stop_idempotent (s : StreamerState) (c1 c2 : ℚ) :
    streamerStop (streamerStop s c1) c2 = streamerStop s c1 ∧
    (s.stopped = true ∨ s.ready = false → streamerStop s c1 = s) := by
  have hnoop : ∀ (t : StreamerState) (c : ℚ),
      t.stopped = true ∨ t.ready = false → streamerStop t c = t := by
    intro t c h
    unfold streamerStop
    rcases h with h | h
    · simp [h]
    · simp [h]
  constructor
  · by_cases hs : s.stopped = true ∨ s.ready = false
    · rw [hnoop s c1 hs]
      exact hnoop s c2 hs
    · push_neg at hs
      have h1 : s.stopped = false := by
        simpa using hs.1
      have h2 : s.ready = true := by
        simpa using hs.2
      apply hnoop
      left
      unfold streamerStop
      simp [h1, h2]
  · exact hnoop s c1

theorem stop_idempotent_witness :
    streamerStop (streamerStop exPlaying 1) 2 = streamerStop exPlaying 1 ∧
    streamerStop exLoaded 1 = exLoaded :=
  ⟨(stop_idempotent exPlaying 1 2).1,
   (stop_idempotent exLoaded 1 2).2 (Or.inl (by decide))⟩

theorem streamerStop_stopped (s : StreamerState) (clock : ℚ)
    (h : s.ready = true ∨ s.stopped = true) :
    (streamerStop s clock).stopped = true := by
  by_cases hs : s.stopped = true
  · unfold streamerStop
    simp [hs]
  · have hs' : s.stopped = false := by simpa using hs
    rcases h with h | h
    · unfold streamerStop
      simp [hs', h]
    · exact absurd h hs

theorem all_ready_or_stopped (l : List StreamerState)
    (h : (l.all fun s => s.ready || s.stopped) = true) :
    ∀ s ∈ l, s.ready = true ∨ s.stopped = true := by
  intro s hs
  have hx := List.all_eq_true.mp h s hs
  simpa [Bool.or_eq_true] using hx

/-- Claim C7: on a non-stopped coordinator, whenever `currentTime()` computes a
position at or past the coordinator's duration, the call stops every streamer,
puts the coordinator in the stopped state, and returns 0. -/
theorem coordinator_current_time_autostop (c : CoordState) (clock d : ℚ)
    (hs : c.stopped = false)
    (hd : c.duration = some (.fin d))
    (hge : d ≤ jsOr c.startOffset 0 + (clock - jsOr c.startTime clock))
    (hstr : ∀ s ∈ c.streamers, s.ready = true ∨ s.stopped = true) :
    (coordCurrentTime c clock).1 = some 0 ∧
    ((coordCurrentTime c clock).2).stopped = true ∧
    ∀ s ∈ ((coordCurrentTime c clock).2).streamers, s.stopped = true := by
  have hgeb : jsGeDur (jsOr c.startOffset 0 + (clock - jsOr c.startTime clock))
      c.duration = true := by
    simp [jsGeDur, hd, hge]
  unfold coordCurrentTime
  simp only [hs, Bool.false_eq_true, if_false, hgeb, if_true]
  refine ⟨trivial, ?_, ?_⟩
  · unfold coordStop
    simp [hs]
  · unfold coordStop
    simp only [hs, Bool.false_eq_true, if_false]
    intro s hmem
    simp only [List.mem_map] at hmem
    obtain ⟨x, hx, hxe⟩ := hmem
    rw [← hxe]
    exact streamerStop_stopped x clock (hstr x hx)

/-- Claim C7 witness state: the spec scenario — two tracks of durations 3 and
5, coordinator duration 5, `stream(0)` started at device time 1 with immediate
primes. The provenance equation in the witness theorem checks this literal is
exactly the state `coordStream` produces. -/
def c7State : CoordState where
  playbackMode := bsnMode
  streamers := [
    { streamID := 0, url := none, name := none, clips := none,
      duration := some 3, ready := true, stopped := false,
      startTime := none, startOffset := some 0, primed := none,
      trackNode := 0, nextNode := 1, ending := false,
      fetchTimer := some (2, 1, 0), garbageBuffer := false },
    { streamID := 1, url := none, name := none, clips := none,
      duration := some 5, ready := true, stopped := false,
      startTime := none, startOffset := some 0, primed := none,
      trackNode := 10, nextNode := 11, ending := false,
      fetchTimer := some (2, 1, 10), garbageBuffer := false }]
  duration := some (.fin 5)
  stopped := false
  ready := false
  startTime := some 1
  startOffset := some 0
  garbageBuffer := false

theorem coordinator_current_time_autostop_witness :
    (coordStream c2Coord 1 [(0, 1), (0, 1)] (some 0)).state = c7State ∧
    (coordCurrentTime c7State (61/10)).1 = some 0 ∧
    ((coordCurrentTime c7State (61/10)).2).stopped = true ∧
    ∀ s ∈ ((coordCurrentTime c7State (61/10)).2).streamers, s.stopped = true :=
  ⟨by norm_num [c7State, c2Coord, coordStream, primeAll, streamAll, coordLoad,
      loadStreamers, streamerLoad, mkCoordinator, freshStreamer, streamerPrime,
      streamerStream, playStep, jsGe, chunkDur, jsMaxList, bsnMode],
   coordinator_current_time_autostop c7State (61/10) 5 rfl rfl
    (by norm_num [c7State, jsOr])
    (all_ready_or_stopped c7State.streamers (by rfl))⟩

/-- Claim C8: the `Streamer` constructor throws for every non-null, non-empty
url (it pushes onto `this.clips`, which is never initialized), so a streamer
is only successfully constructed with a null or empty url — in which case no
name or locator is set — and name and locator can only be attached afterwards
via `addClip` (also reached through `addClipToStream`). -/
theorem constructor_requires_null_url (u : String) (i n : ℕ)
    (h : u.length > 0) :
    mkStreamer (some u) i n = .error .clipsUndefined ∧
    mkStreamer none i n = .ok (freshStreamer i n) ∧
    mkStreamer (some emptyStr) i n = .ok (freshStreamer i n) ∧
    (freshStreamer i n).url = none ∧ (freshStreamer i n).name = none ∧
    (streamerAddClip (freshStreamer i n) u).url = some u ∧
    (streamerAddClip (freshStreamer i n) u).name = some (deriveName u) := by
  refine ⟨?_, rfl, by simp [mkStreamer, emptyStr], rfl, rfl, rfl, rfl⟩
  simp [mkStreamer, h]

theorem constructor_requires_null_url_witness :
    mkStreamer (some exUrl) 0 0 = .error .clipsUndefined ∧
    mkStreamer none 0 0 = .ok (freshStreamer 0 0) ∧
    mkStreamer (some emptyStr) 0 0 = .ok (freshStreamer 0 0) ∧
    (freshStreamer 0 0).url = none ∧ (freshStreamer 0 0).name = none ∧
    (streamerAddClip (freshStreamer 0 0) exUrl).url = some exUrl ∧
    (streamerAddClip (freshStreamer 0 0) exUrl).name = some (deriveName exUrl) :=
  constructor_requires_null_url exUrl 0 0 (by decide)

theorem streamerPrime_ok_fields (s : StreamerState) (off : Option ℚ) (rd : ℚ)
    (r : StreamerState × ℚ × ℚ) (h : streamerPrime s off rd = .ok r) :
    r.1.stopped = s.stopped ∧ r.1.startOffset = s.startOffset := by
  unfold streamerPrime at h
  dsimp only at h
  split at h
  · cases h
  · split at h
    · cases h
    · cases h
      exact ⟨rfl, rfl⟩

theorem applyStreamerOp_keeps (s : StreamerState) (op : StreamerOp)
    (h1 : s.stopped = true) (h2 : s.startOffset = none) :
    (applyStreamerOp s op).stopped = true ∧
    (applyStreamerOp s op).startOffset = none := by
  cases op with
  | load d => simpa [applyStreamerOp, streamerLoad] using ⟨h1, h2⟩
  | prime off rd =>
    simp only [applyStreamerOp]
    cases hres : streamerPrime s off rd with
    | error e =>
      exact ⟨h1, h2⟩
    | ok r =>
      have hf := streamerPrime_ok_fields s off rd r hres
      exact ⟨hf.1.trans h1, hf.2.trans h2⟩
  | stop clock =>
    have hn : streamerStop s clock = s := by
      unfold streamerStop
      simp [h1]
    simpa [applyStreamerOp, hn] using ⟨h1, h2⟩

theorem applyStreamerOps_keeps (ops : List StreamerOp) :
    ∀ s : StreamerState, s.stopped = true → s.startOffset = none →
    (applyStreamerOps s ops).stopped = true ∧
    (applyStreamerOps s ops).startOffset = none := by
  induction ops with
  | nil =>
    intro s h1 h2
    exact ⟨h1, h2⟩
  | cons op rest ih =>
    intro s h1 h2
    have h := applyStreamerOp_keeps s op h1 h2
    simpa [applyStreamerOps, List.foldl_cons] using
      ih (applyStreamerOp s op) h.1 h.2

theorem applyCoordOp_keeps (c : CoordState) (op : CoordOp)
    (h1 : c.stopped = true) (h2 : c.startOffset = none) :
    (applyCoordOp c op).stopped = true ∧
    (applyCoordOp c op).startOffset = none := by
  cases op with
  | load durs => simpa [applyCoordOp, coordLoad] using ⟨h1, h2⟩
  | stop clock =>
    have hn : coordStop c clock = c := by
      unfold coordStop
      simp [h1]
    simpa [applyCoordOp, hn] using ⟨h1, h2⟩
  | read clock =>
    have hn : (coordCurrentTime c clock).2 = c := by
      unfold coordCurrentTime
      simp [h1]
    simpa [applyCoordOp, hn] using ⟨h1, h2⟩

theorem applyCoordOps_keeps (ops : List CoordOp) :
    ∀ c : CoordState, c.stopped = true → c.startOffset = none →
    (applyCoordOps c ops).stopped = true ∧
    (applyCoordOps c ops).startOffset = none := by
  induction ops with
  | nil =>
    intro c h1 h2
    exact ⟨h1, h2⟩
  | cons op rest ih =>
    intro c h1 h2
    have h := applyCoordOp_keeps c op h1 h2
    simpa [applyCoordOps, List.foldl_cons] using
      ih (applyCoordOp c op) h.1 h.2

/-- Claim C9: on a freshly constructed `Streamer` or `StreamCoordinator`, after
any sequence of the public operations other than `stream`/`seek` (loads, primes
with any arguments, stops, reads), `currentTime()` returns null — the initial
`startOffset` — rather than a number, because the stopped branch returns
`startOffset` unchanged. -/
theorem fresh_current_time_null (ops : List StreamerOp) (cops : List CoordOp)
    (i n : ℕ) (mode : String) (clock : ℚ) :
    streamerCurrentTime (applyStreamerOps (freshStreamer i n) ops) clock
      = none ∧
    (coordCurrentTime (applyCoordOps (mkCoordinator mode) cops) clock).1
      = none := by
  have h1 := applyStreamerOps_keeps ops (freshStreamer i n) rfl rfl
  have h2 := applyCoordOps_keeps cops (mkCoordinator mode) rfl rfl
  constructor
  · unfold streamerCurrentTime
    simp [h1.1, h1.2]
  · unfold coordCurrentTime
    simp [h2.1, h2.2]

/-- Claim C10: `StreamCoordinator.load()` on a coordinator owning zero
streamers resolves with `duration = -Infinity` (`Math.max` over an empty list),
and a later non-stopped `currentTime()` read on such a coordinator immediately
auto-stops and returns 0. -/
theorem load_no_streamers_neg_inf (c c2 : CoordState) (clock : ℚ)
    (h0 : c.streamers = []) (h1 : c2.stopped = false)
    (h2 : c2.duration = some .negInf) :
    (coordLoad c []).duration = some .negInf ∧
    (coordCurrentTime c2 clock).1 = some 0 ∧
    ((coordCurrentTime c2 clock).2).stopped = true := by
  refine ⟨?_, ?_, ?_⟩
  · simp [coordLoad, h0, loadStreamers, jsMaxList]
  · unfold coordCurrentTime
    simp [h1, h2, jsGeDur]
  · unfold coordCurrentTime coordStop
    simp [h1, h2, jsGeDur]

def c10Playing : CoordState :=
  { coordLoad (mkCoordinator bsnMode) [] with stopped := false }

theorem load_no_streamers_neg_inf_witness :
    (coordLoad (mkCoordinator bsnMode) []).duration = some .negInf ∧
    (coordCurrentTime c10Playing 2).1 = some 0 ∧
    ((coordCurrentTime c10Playing 2).2).stopped = true :=
  load_no_streamers_neg_inf (mkCoordinator bsnMode) c10Playing 2 rfl rfl rfl
